import Mathlib

/-!
Verification of the actors-interop FFI layer (C++/Rust actor bridge).

This file gives a shallow embedding, in Lean 4, of the parts of the
repository that the specification's claims speak about:

* the interop message schema of `messages/interop_messages.h`
  (eight message types, integer ids, fixed-layout fields);
* the bounded-string (`interop_string`) and fixed char-array encodings
  used when messages cross the FFI boundary;
* `RustActorRef::send` (cpp/src/RustActorRef.cpp): dispatch by message
  id to the `rust_actor_send` bridge call, dropping unknown ids, and
  unconditional deletion of the message;
* `InteropManager::get_ref` (generated/cpp/InteropManager.hpp): local
  table first, then the peer's `exists` query, else ActorNotFound;
* the Rust-side bridge entry points `rust_actor_exists` /
  `rust_actor_send` (generated Rust code; modelled from the spec since
  the generated sources are not in the repository snapshot);
* the `PriceFeed` pub/sub handlers of
  `examples/rust_subscribes_cpp_publisher/cpp_publisher.cpp`.

C++ `char` values are modelled as Lean `Char`, C `double` values as their
64-bit patterns (a `Nat`), since the codec copies them verbatim; machine
integers are `Int` with explicit range bounds where the schema declares
an `int32_t` / `int64_t` field.
-/

/- ========================================================================
   Bounded strings (`interop_string`) and fixed char arrays
   ======================================================================== -/

/-- The NUL character, terminator of C strings. -/
def nulChar : Char := Char.ofNat 0

/-- `INTEROP_STRING_MAX` from messages/interop_messages.h: the fixed
capacity, in bytes, of the `data` buffer of an `interop_string`. -/
def INTEROP_STRING_MAX : Nat := 64

/-- The C struct `interop_string` of messages/interop_messages.h:
`char data[INTEROP_STRING_MAX]` plus a `uint32_t len`.  `data` is
modelled as a list of characters of length `INTEROP_STRING_MAX`. -/
structure interop_string where
  data : List Char
  len : Nat
deriving DecidableEq

/-- The characters actually copied by C `strncpy(dest, src, n)`:
the source up to its first NUL, cut at `n`, padded with NUL bytes to
exactly `n` bytes.  Mirrors the fill of `req.symbol.data` in
src/tests/test_ffi.cpp. -/
def strncpyData (s : List Char) (n : Nat) : List Char :=
  let src := s.takeWhile (fun c => c ≠ nulChar)
  src.take n ++ List.replicate (n - src.length) nulChar

/-- C `strlen`: the length of the string up to its first NUL. -/
def strlenOf (s : List Char) : Nat :=
  (s.takeWhile (fun c => c ≠ nulChar)).length

/-- Encoding of a native string into an `interop_string`, as performed at
the FFI boundary (src/tests/test_ffi.cpp lines 56-64):
`strncpy(dest.data, s, INTEROP_STRING_MAX - 1)` followed by
`dest.len = strlen(s)`.  The last byte of the buffer, which `strncpy`
leaves untouched, is modelled as NUL. -/
def interopStringOfString (s : List Char) : interop_string :=
  { data := strncpyData s (INTEROP_STRING_MAX - 1) ++ [nulChar],
    len := strlenOf s }

/-- Modelled from the spec: the generated decoder for `interop_string`
fields (`from_c_struct` of generated/cpp/InteropMessages.hpp and
generated/rust/interop_messages.rs, not present in the repository
snapshot).  Per the spec, bounded strings "truncate deterministically at
the declared capacity and still report the true original length", so the
decoder reads `min len (INTEROP_STRING_MAX - 1)` bytes of the buffer. -/
def stringOfInteropString (c : interop_string) : List Char :=
  c.data.take (min c.len (INTEROP_STRING_MAX - 1))

/-- The fill of a fixed `char[n]` message field as done by
`PriceFeed::send_update` (cpp_publisher.cpp lines 130-146):
`std::fill` with NUL over the whole n-byte array, then `std::copy` of the
first `min (length s) (n - 1)` characters of the source. -/
def fillCharArray (n : Nat) (s : List Char) : List Char :=
  s.take (min s.length (n - 1)) ++
    List.replicate (n - min s.length (n - 1)) nulChar

/-- Extraction of a string from a fixed char-array field as done by
`PriceFeed::on_subscribe` (cpp_publisher.cpp lines 68-71):
the characters before the first NUL. -/
def charArrayToString (a : List Char) : List Char :=
  a.takeWhile (fun c => c ≠ nulChar)

/- ========================================================================
   The message schema of messages/interop_messages.h
   ======================================================================== -/

/-- The `INTEROP_MESSAGE(name, id)` declarations of
messages/interop_messages.h, in declaration order. -/
def interopMessageDecls : List (String × Int) :=
  [("Ping", 1000), ("Pong", 1001), ("DataRequest", 1002),
   ("DataResponse", 1003), ("Subscribe", 1010), ("Unsubscribe", 1011),
   ("MarketUpdate", 1012), ("MarketDepth", 1013)]

/-- The declared interop message ids. -/
def interopMessageIds : List Int := interopMessageDecls.map (fun p => p.2)

/-- A C `double` is modelled by its 64-bit pattern; the codec copies it
verbatim. -/
abbrev CDouble : Type := Nat

/-- `x` fits in an `int32_t`. -/
def int32Bounded (x : Int) : Prop := -(2 ^ 31) ≤ x ∧ x < 2 ^ 31

/-- `x` fits in an `int64_t`. -/
def int64Bounded (x : Int) : Prop := -(2 ^ 63) ≤ x ∧ x < 2 ^ 63

instance (x : Int) : Decidable (int32Bounded x) := by
  unfold int32Bounded; infer_instance

instance (x : Int) : Decidable (int64Bounded x) := by
  unfold int64Bounded; infer_instance

/- ========================================================================
   Native and C-layout message forms, and the per-message codec
   ======================================================================== -/

/-- Native (C++-side) form of `Ping` (id 1000). -/
structure MsgPing where
  count : Int
deriving DecidableEq

/-- Native form of `Pong` (id 1001). -/
structure MsgPong where
  count : Int
deriving DecidableEq

/-- Native form of `DataRequest` (id 1002): an `int32_t` plus an
`interop_string` field, whose native representation is a string. -/
structure MsgDataRequest where
  request_id : Int
  symbol : List Char
deriving DecidableEq

/-- Native form of `DataResponse` (id 1003): the `found` field is declared
`int32_t` holding a boolean (1=true, 0=false); its native C++ form is
`bool` per the repository's type-mapping table. -/
structure MsgDataResponse where
  request_id : Int
  value : CDouble
  found : Bool
deriving DecidableEq

/-- Native form of `Subscribe` (id 1010): `char topic[32]`, natively a
`std::array<char, 32>`. -/
structure MsgSubscribe where
  topic : List Char
deriving DecidableEq

/-- Native form of `Unsubscribe` (id 1011). -/
structure MsgUnsubscribe where
  topic : List Char
deriving DecidableEq

/-- Native form of `MarketUpdate` (id 1012). -/
structure MsgMarketUpdate where
  symbol : List Char
  price : CDouble
  timestamp : Int
  volume : Int
deriving DecidableEq

/-- Native form of `MarketDepth` (id 1013): fixed arrays of 5 levels. -/
structure MsgMarketDepth where
  symbol : List Char
  num_levels : Int
  bid_prices : List CDouble
  ask_prices : List CDouble
  bid_sizes : List Int
  ask_sizes : List Int
deriving DecidableEq

/-- A schema message in native form. -/
inductive InteropMessage where
  | ping (m : MsgPing)
  | pong (m : MsgPong)
  | dataRequest (m : MsgDataRequest)
  | dataResponse (m : MsgDataResponse)
  | subscribe (m : MsgSubscribe)
  | unsubscribe (m : MsgUnsubscribe)
  | marketUpdate (m : MsgMarketUpdate)
  | marketDepth (m : MsgMarketDepth)
deriving DecidableEq

/-- C-layout form of `DataRequest`: the `symbol` field is the
fixed-layout `interop_string`. -/
structure CDataRequest where
  request_id : Int
  symbol : interop_string
deriving DecidableEq

/-- C-layout form of `DataResponse`: `found` is an `int32_t`. -/
structure CDataResponse where
  request_id : Int
  value : CDouble
  found : Int
deriving DecidableEq

/-- A schema message in C-layout (wire) form.  Messages without a
bounded-string or boolean field have the same shape in both forms,
because the codec copies primitives and fixed arrays verbatim. -/
inductive CStruct where
  | ping (m : MsgPing)
  | pong (m : MsgPong)
  | dataRequest (m : CDataRequest)
  | dataResponse (m : CDataResponse)
  | subscribe (m : MsgSubscribe)
  | unsubscribe (m : MsgUnsubscribe)
  | marketUpdate (m : MsgMarketUpdate)
  | marketDepth (m : MsgMarketDepth)
deriving DecidableEq

/-- Modelled from the spec: the generated `to_c_struct` encoders
(generated/cpp/InteropMessages.hpp, not present in the repository
snapshot).  Primitive, fixed-array and char-array fields are copied
verbatim; a native string becomes an `interop_string` by the bounded
truncating copy; a native `bool` becomes `int32_t` 1 or 0. -/
def to_c_struct : InteropMessage → CStruct
  | .ping m => .ping m
  | .pong m => .pong m
  | .dataRequest m =>
      .dataRequest { request_id := m.request_id,
                     symbol := interopStringOfString m.symbol }
  | .dataResponse m =>
      .dataResponse { request_id := m.request_id, value := m.value,
                      found := if m.found then 1 else 0 }
  | .subscribe m => .subscribe m
  | .unsubscribe m => .unsubscribe m
  | .marketUpdate m => .marketUpdate m
  | .marketDepth m => .marketDepth m

/-- Modelled from the spec: the generated `from_c_struct` decoders
(generated/cpp/InteropMessages.hpp, not present in the repository
snapshot).  The decoder always produces a freshly owned native copy:
primitives and fixed arrays verbatim, `interop_string` by the bounded
read of `min len (capacity - 1)` bytes, `int32_t` booleans by a
nonzero test. -/
def from_c_struct : CStruct → InteropMessage
  | .ping m => .ping m
  | .pong m => .pong m
  | .dataRequest m =>
      .dataRequest { request_id := m.request_id,
                     symbol := stringOfInteropString m.symbol }
  | .dataResponse m =>
      .dataResponse { request_id := m.request_id, value := m.value,
                      found := decide (m.found ≠ 0) }
  | .subscribe m => .subscribe m
  | .unsubscribe m => .unsubscribe m
  | .marketUpdate m => .marketUpdate m
  | .marketDepth m => .marketDepth m

/-- A 64-bit pattern (the model of a C `double`). -/
def cdoubleBounded (x : CDouble) : Prop := (x : Nat) < 2 ^ 64

instance (x : CDouble) : Decidable (cdoubleBounded x) := by
  unfold cdoubleBounded; infer_instance

/-- All fields of the message are within the bounds declared by the
schema: machine integers in range, `char[n]` arrays of their declared
length, fixed numeric arrays of their declared length, and native
strings that fit the `interop_string` capacity and contain no NUL. -/
def InteropMessage.inBounds : InteropMessage → Prop
  | .ping m => int32Bounded m.count
  | .pong m => int32Bounded m.count
  | .dataRequest m =>
      int32Bounded m.request_id ∧
      m.symbol.length ≤ INTEROP_STRING_MAX - 1 ∧ nulChar ∉ m.symbol
  | .dataResponse m =>
      int32Bounded m.request_id ∧ cdoubleBounded m.value
  | .subscribe m => m.topic.length = 32
  | .unsubscribe m => m.topic.length = 32
  | .marketUpdate m =>
      m.symbol.length = 8 ∧ cdoubleBounded m.price ∧
      int64Bounded m.timestamp ∧ int32Bounded m.volume
  | .marketDepth m =>
      m.symbol.length = 8 ∧ int32Bounded m.num_levels ∧
      m.bid_prices.length = 5 ∧ m.ask_prices.length = 5 ∧
      m.bid_sizes.length = 5 ∧ m.ask_sizes.length = 5 ∧
      (∀ x ∈ m.bid_prices, cdoubleBounded x) ∧
      (∀ x ∈ m.ask_prices, cdoubleBounded x) ∧
      (∀ x ∈ m.bid_sizes, int32Bounded x) ∧
      (∀ x ∈ m.ask_sizes, int32Bounded x)

instance (m : InteropMessage) : Decidable m.inBounds := by
  cases m <;> (unfold InteropMessage.inBounds; infer_instance)

/- ========================================================================
   RustActorRef::send (cpp/src/RustActorRef.cpp)
   ======================================================================== -/

/-- Observable actions of one `RustActorRef::send` invocation: a
`rust_actor_send` bridge call with its arguments, or the `delete m`
releasing the message. -/
inductive SendEvent where
  | bridgeCall (target : String) (sender : Option String) (msgType : Int)
  | deleteMsg
deriving DecidableEq

/-- Whether an event is the message deletion. -/
def SendEvent.isDelete : SendEvent → Bool
  | .deleteMsg => true
  | _ => false

/-- `RustActorRef::send` (cpp/src/RustActorRef.cpp), as the sequence of
observable actions performed for a message with id `msgId`: the switch
on `get_message_id()` makes one `rust_actor_send` call for each of the
eight registered ids, silently ignores any other id, and in every case
then deletes the message.  An empty sender name is passed as a null
sender. -/
def rustActorRefSend (targetName senderName : String) (msgId : Int) :
    List SendEvent :=
  let senderArg : Option String :=
    if senderName = "" then none else some senderName
  let calls : List SendEvent :=
    if msgId = 1000 then [.bridgeCall targetName senderArg 1000]
    else if msgId = 1001 then [.bridgeCall targetName senderArg 1001]
    else if msgId = 1002 then [.bridgeCall targetName senderArg 1002]
    else if msgId = 1003 then [.bridgeCall targetName senderArg 1003]
    else if msgId = 1010 then [.bridgeCall targetName senderArg 1010]
    else if msgId = 1011 then [.bridgeCall targetName senderArg 1011]
    else if msgId = 1012 then [.bridgeCall targetName senderArg 1012]
    else if msgId = 1013 then [.bridgeCall targetName senderArg 1013]
    else []
  calls ++ [.deleteMsg]

/- ========================================================================
   InteropManager::get_ref (generated/cpp/InteropManager.hpp)
   ======================================================================== -/

/-- The variants an `actors::ActorRef` produced by `get_ref` can take:
a local (same-runtime) reference wrapping the actor handle, or a
cross-runtime `RustActorRef` carrying target and sender names. -/
inductive ActorRefVariant where
  | localRef (handle : Nat)
  | rustRef (targetName : String) (senderName : String)
deriving DecidableEq

/-- Resolution failure of `get_ref`. -/
inductive GetRefError where
  | actorNotFound (name : String)
deriving DecidableEq

/-- `InteropManager::get_ref` (generated/cpp/InteropManager.hpp):
first `get_actor_by_name` on the runtime's own table, returning a local
reference on a hit; only otherwise the peer's `rust_actor_exists`
query, returning a cross-runtime reference on a hit; else the
actor-not-found error surfaces to the caller.  The second component
records whether the peer `exists` query was issued. -/
def InteropManager.get_ref (localTable : List (String × Nat))
    (rustExists : String → Bool) (name : String) :
    Except GetRefError ActorRefVariant × Bool :=
  match localTable.lookup name with
  | some a => (.ok (.localRef a), false)
  | none =>
      if rustExists name then (.ok (.rustRef name ""), true)
      else (.error (.actorNotFound name), true)

/- ========================================================================
   Rust-side bridge entry points (generated Rust code)
   ======================================================================== -/

/-- `rust_actor_send` status: delivered. -/
def STATUS_DELIVERED : Int := 0

/-- `rust_actor_send` status: target actor not found. -/
def STATUS_NOT_FOUND : Int := -1

/-- Modelled from the spec: the Rust bridge entry point
`rust_actor_exists` (generated/rust/rust_actor_bridge.rs, not present in
the repository snapshot).  It is a total function on the peer registry
returning an integer: 1 when `name` is registered, 0 when not, as
exercised by src/tests/test_ffi.cpp. -/
def rust_actor_exists (registry : List String) (name : String) : Int :=
  if name ∈ registry then 1 else 0

/-- Modelled from the spec: the Rust bridge entry point
`rust_actor_send` (generated/rust/rust_actor_bridge.rs, not present in
the repository snapshot).  Per the spec, `deliver` is total and returns
an integer status — Delivered (0) on success, NotFound (-1) when the
target name is not registered — rather than letting any fault cross the
boundary; src/tests/test_ffi.cpp checks the NotFound case. -/
def rust_actor_send (registry : List String) (target : String)
    (sender : Option String) (msgType : Int) : Int :=
  if target ∈ registry then STATUS_DELIVERED else STATUS_NOT_FOUND

/- ========================================================================
   PriceFeed pub/sub handlers (cpp_publisher.cpp)
   ======================================================================== -/

/-- `SubscriberInfo` of cpp_publisher.cpp: the stored `ActorRef`
(abstracted to the sender's name it was built from) and the list of
subscribed topics. -/
structure SubscriberInfo where
  ref : String
  topics : List String
deriving DecidableEq

/-- The `subscribers_` map, keyed by sender name.  `std::unordered_map`
is modelled as an association list whose operations touch the first
matching key. -/
abbrev Subscribers : Type := List (String × SubscriberInfo)

/-- `subscribers_.find(k)`: the value at the first matching key. -/
def subsFind : Subscribers → String → Option SubscriberInfo
  | [], _ => none
  | e :: rest, k => if e.1 = k then some e.2 else subsFind rest k

/-- In-place modification of the entry at the first matching key. -/
def subsUpdateFirst : Subscribers → String →
    (SubscriberInfo → SubscriberInfo) → Subscribers
  | [], _, _ => []
  | e :: rest, k, f =>
      if e.1 = k then (e.1, f e.2) :: rest
      else e :: subsUpdateFirst rest k f

/-- `subscribers_.erase(it)`: removal of the entry at the first
matching key. -/
def subsEraseFirst : Subscribers → String → Subscribers
  | [], _ => []
  | e :: rest, k => if e.1 = k then rest else e :: subsEraseFirst rest k

/-- The per-entry update of `on_subscribe`: append the topic to the
subscriber's topic list unless already present (cpp_publisher.cpp lines
94-98). -/
def subscribeUpd (topic : String) (info : SubscriberInfo) :
    SubscriberInfo :=
  if topic ∈ info.topics then info
  else { info with topics := info.topics ++ [topic] }

/-- Effect of `PriceFeed::on_subscribe` (cpp_publisher.cpp lines 68-105)
on `subscribers_`.  With no sender the handler returns unchanged.
Otherwise: if the sender has no entry, one is inserted holding the
sender's `ActorRef` and an empty topic list; then the topic is appended
to that sender's topic list unless already present.  (The initial price
update it may then send does not touch `subscribers_`.) -/
def on_subscribe (sender : Option String) (topic : String)
    (subs : Subscribers) : Subscribers :=
  match sender with
  | none => subs
  | some sname =>
      let subs1 : Subscribers :=
        match subsFind subs sname with
        | some _ => subs
        | none => subs ++ [(sname, { ref := sname, topics := [] })]
      subsUpdateFirst subs1 sname (subscribeUpd topic)

/-- Effect of `PriceFeed::on_unsubscribe` (cpp_publisher.cpp lines
107-128) on `subscribers_`.  With no sender, or when the sender has no
entry, the handler returns unchanged.  Otherwise every occurrence of
the topic is removed from the sender's topic list; if the list becomes
empty the whole entry is erased. -/
def on_unsubscribe (sender : Option String) (topic : String)
    (subs : Subscribers) : Subscribers :=
  match sender with
  | none => subs
  | some sname =>
      match subsFind subs sname with
      | none => subs
      | some info =>
          let newTopics := info.topics.filter (fun t => t ≠ topic)
          if newTopics = [] then subsEraseFirst subs sname
          else subsUpdateFirst subs sname (fun i =>
            { i with topics := i.topics.filter (fun t => t ≠ topic) })

/-- The invariant of the `subscribers_` table: every entry has a
non-empty topic list. -/
def SubsInv (subs : Subscribers) : Prop :=
  ∀ e ∈ subs, e.2.topics ≠ []

instance (subs : Subscribers) : Decidable (SubsInv subs) := by
  unfold SubsInv; exact List.decidableBAll _ subs

/- ========================================================================
   Helper lemmas
   ======================================================================== -/

theorem takeWhile_ne_nul_eq_self (s : List Char) (h : nulChar ∉ s) :
    s.takeWhile (fun c => c ≠ nulChar) = s := by
  induction s with
  | nil => rfl
  | cons a t ih =>
    simp only [List.mem_cons, not_or] at h
    simp only [List.takeWhile_cons]
    rw [if_pos (by simp [Ne.symm h.1]), ih h.2]

theorem strncpyData_length (s : List Char) (n : Nat) :
    (strncpyData s n).length = n := by
  simp only [strncpyData, List.length_append, List.length_take,
    List.length_replicate]
  omega

theorem subsFind_updateFirst (l : Subscribers) (k : String)
    (f : SubscriberInfo → SubscriberInfo) :
    subsFind (subsUpdateFirst l k f) k = (subsFind l k).map f := by
  induction l with
  | nil => rfl
  | cons e rest ih =>
    by_cases h : e.1 = k <;> simp [subsFind, subsUpdateFirst, h, ih]

theorem subsFind_append_self (l : Subscribers) (k : String)
    (v : SubscriberInfo) (h : subsFind l k = none) :
    subsFind (l ++ [(k, v)]) k = some v := by
  induction l with
  | nil => simp [subsFind]
  | cons e rest ih =>
    by_cases he : e.1 = k
    · simp [subsFind, he] at h
    · simp only [subsFind, he, if_false] at h
      simpa [subsFind, he] using ih h

theorem subsUpdateFirst_eq_of_fix (l : Subscribers) (k : String)
    (f : SubscriberInfo → SubscriberInfo) (v : SubscriberInfo)
    (hfind : subsFind l k = some v) (hfix : f v = v) :
    subsUpdateFirst l k f = l := by
  induction l with
  | nil => rfl
  | cons e rest ih =>
    obtain ⟨a, b⟩ := e
    by_cases he : a = k
    · simp [subsFind, he] at hfind
      simp [subsUpdateFirst, he, hfind, hfix]
    · simp only [subsFind, he, if_false] at hfind
      simp [subsUpdateFirst, he, ih hfind]

theorem subsUpdateFirst_append (l : Subscribers) (k : String)
    (v : SubscriberInfo) (f : SubscriberInfo → SubscriberInfo)
    (h : subsFind l k = none) :
    subsUpdateFirst (l ++ [(k, v)]) k f = l ++ [(k, f v)] := by
  induction l with
  | nil => simp [subsUpdateFirst]
  | cons e rest ih =>
    by_cases he : e.1 = k
    · simp [subsFind, he] at h
    · simp only [subsFind, he, if_false] at h
      simp [subsUpdateFirst, he, ih h]

theorem mem_subsUpdateFirst (l : Subscribers) (k : String)
    (f : SubscriberInfo → SubscriberInfo) (e : String × SubscriberInfo)
    (he : e ∈ subsUpdateFirst l k f) :
    e ∈ l ∨ ∃ v, subsFind l k = some v ∧ e = (k, f v) := by
  induction l with
  | nil => simp [subsUpdateFirst] at he
  | cons a rest ih =>
    obtain ⟨a1, a2⟩ := a
    by_cases ha : a1 = k
    · subst ha
      simp only [subsUpdateFirst, eq_self_iff_true, if_true] at he
      rw [List.mem_cons] at he
      cases he with
      | inl h1 => exact Or.inr ⟨a2, by simp [subsFind], h1⟩
      | inr h1 => exact Or.inl (List.mem_cons_of_mem _ h1)
    · simp only [subsUpdateFirst, if_neg ha, List.mem_cons] at he
      cases he with
      | inl h1 => exact Or.inl (by simp [h1])
      | inr h1 =>
        cases ih h1 with
        | inl h2 => exact Or.inl (List.mem_cons_of_mem _ h2)
        | inr h2 =>
          obtain ⟨v, hv, hev⟩ := h2
          exact Or.inr ⟨v, by simp [subsFind, ha, hv], hev⟩

theorem mem_subsEraseFirst (l : Subscribers) (k : String)
    (e : String × SubscriberInfo) (he : e ∈ subsEraseFirst l k) :
    e ∈ l := by
  induction l with
  | nil => simp [subsEraseFirst] at he
  | cons a rest ih =>
    by_cases ha : a.1 = k
    · simp only [subsEraseFirst, ha, if_pos rfl] at he
      exact List.mem_cons_of_mem _ he
    · simp only [subsEraseFirst, ha, if_false, List.mem_cons] at he
      rcases he with he | he
      · simp [he]
      · exact List.mem_cons_of_mem _ (ih he)

theorem subscribeUpd_mem (topic : String) (info : SubscriberInfo) :
    topic ∈ (subscribeUpd topic info).topics := by
  unfold subscribeUpd
  split
  · assumption
  · simp

theorem subscribeUpd_fix (topic : String) (info : SubscriberInfo)
    (h : topic ∈ info.topics) : subscribeUpd topic info = info := by
  simp [subscribeUpd, h]

theorem takeWhile_append_of_all (p : Char → Bool) (l₁ l₂ : List Char)
    (h : ∀ a ∈ l₁, p a = true) :
    (l₁ ++ l₂).takeWhile p = l₁ ++ l₂.takeWhile p := by
  induction l₁ with
  | nil => simp
  | cons a t ih =>
    have ha := h a (List.mem_cons_self a t)
    have ht : ∀ x ∈ t, p x = true :=
      fun x hx => h x (List.mem_cons_of_mem a hx)
    simp [List.takeWhile_cons, ha, ih ht]

theorem string_roundtrip (s : List Char)
    (hlen : s.length ≤ INTEROP_STRING_MAX - 1) (hnul : nulChar ∉ s) :
    stringOfInteropString (interopStringOfString s) = s := by
  have hsw := takeWhile_ne_nul_eq_self s hnul
  simp only [stringOfInteropString, interopStringOfString, strncpyData,
    strlenOf, hsw]
  rw [List.take_of_length_le hlen, Nat.min_eq_left hlen,
    List.append_assoc, List.take_left]

/- ========================================================================
   Claim theorems
   ======================================================================== -/

/-- C1: for every message type of the schema (Ping, Pong, DataRequest,
DataResponse, Subscribe, Unsubscribe, MarketUpdate, MarketDepth) and
every value m whose fields are all within their declared bounds,
decoding the encoding of m (`from_c_struct` applied to `to_c_struct`)
returns a value equal to m. -/
theorem decode_encode_roundtrip (m : InteropMessage) (h : m.inBounds) :
    from_c_struct (to_c_struct m) = m := by
  cases m with
  | ping p => rfl
  | pong p => rfl
  | dataRequest p =>
      obtain ⟨h1, h2, h3⟩ := h
      simp [to_c_struct, from_c_struct, string_roundtrip p.symbol h2 h3]
  | dataResponse p =>
      obtain ⟨rid, v, f⟩ := p
      cases f <;> rfl
  | subscribe p => rfl
  | unsubscribe p => rfl
  | marketUpdate p => rfl
  | marketDepth p => rfl

/-- Witness for C1: a concrete DataRequest within bounds round-trips. -/
theorem decode_encode_roundtrip_witness :
    (InteropMessage.dataRequest ⟨7, ['A', 'B']⟩).inBounds ∧
    from_c_struct (to_c_struct (InteropMessage.dataRequest ⟨7, ['A', 'B']⟩))
      = InteropMessage.dataRequest ⟨7, ['A', 'B']⟩ :=
  ⟨by decide, decode_encode_roundtrip _ (by decide)⟩

/-- C2: for every source string s longer than the declared capacity,
(a) encoding s into an `interop_string` (capacity `INTEROP_STRING_MAX`)
yields a decoded string of exactly `INTEROP_STRING_MAX - 1` characters,
reports the original untruncated length of s (which is at least the
capacity), and writes exactly the `INTEROP_STRING_MAX`-byte buffer;
(b) encoding s into a fixed `char[n]` field yields a decoded string of
exactly `n - 1` characters and writes exactly the n-byte buffer. -/
theorem string_truncation_law (s : List Char) (n : Nat)
    (hnul : nulChar ∉ s) :
    (INTEROP_STRING_MAX < s.length →
      (stringOfInteropString (interopStringOfString s)).length
          = INTEROP_STRING_MAX - 1 ∧
      (interopStringOfString s).len = s.length ∧
      INTEROP_STRING_MAX ≤ (interopStringOfString s).len ∧
      (interopStringOfString s).data.length = INTEROP_STRING_MAX) ∧
    (0 < n → n < s.length →
      (charArrayToString (fillCharArray n s)).length = n - 1 ∧
      (fillCharArray n s).length = n) := by
  have hsw := takeWhile_ne_nul_eq_self s hnul
  constructor
  · intro hbig
    have hlen : (interopStringOfString s).len = s.length := by
      simp only [interopStringOfString, strlenOf]
      rw [hsw]
    have hdata : (interopStringOfString s).data.length
        = INTEROP_STRING_MAX := by
      simp only [interopStringOfString, List.length_append,
        strncpyData_length, List.length_cons, List.length_nil,
        INTEROP_STRING_MAX]
    have hdec : (stringOfInteropString (interopStringOfString s)).length
        = INTEROP_STRING_MAX - 1 := by
      simp only [stringOfInteropString, List.length_take, hlen, hdata]
      simp only [INTEROP_STRING_MAX] at hbig ⊢
      omega
    exact ⟨hdec, hlen, by omega, hdata⟩
  · intro hn hns
    have hmin : min s.length (n - 1) = n - 1 := by omega
    have hfill : fillCharArray n s = s.take (n - 1) ++ [nulChar] := by
      unfold fillCharArray
      rw [hmin]
      have hone : n - (n - 1) = 1 := by omega
      rw [hone]
      rfl
    have hdecoded : charArrayToString (fillCharArray n s)
        = s.take (n - 1) := by
      rw [hfill]
      unfold charArrayToString
      rw [takeWhile_append_of_all _ _ _ ?_]
      · have hnp : (fun c => decide (c ≠ nulChar)) nulChar = false := by
          simp
        simp [List.takeWhile_cons, hnp]
      · intro a ha
        have hmem : a ∈ s := List.take_subset _ _ ha
        simp only [decide_eq_true_eq]
        exact fun he => hnul (he ▸ hmem)
    constructor
    · rw [hdecoded, List.length_take]
      omega
    · rw [hfill]
      simp only [List.length_append, List.length_take, List.length_cons,
        List.length_nil]
      omega

/-- Witness for C2: a 70-character source against the 64-byte
`interop_string` capacity and an 8-byte `char` array. -/
theorem string_truncation_law_witness :
    nulChar ∉ List.replicate 70 'a' ∧
    INTEROP_STRING_MAX < (List.replicate 70 'a').length ∧
    ((stringOfInteropString
        (interopStringOfString (List.replicate 70 'a'))).length
      = INTEROP_STRING_MAX - 1 ∧
     (interopStringOfString (List.replicate 70 'a')).len
      = (List.replicate 70 'a').length ∧
     INTEROP_STRING_MAX ≤ (interopStringOfString (List.replicate 70 'a')).len ∧
     (interopStringOfString (List.replicate 70 'a')).data.length
      = INTEROP_STRING_MAX) ∧
    ((charArrayToString (fillCharArray 8 (List.replicate 70 'a'))).length
      = 7 ∧
     (fillCharArray 8 (List.replicate 70 'a')).length = 8) :=
  ⟨by decide, by decide,
   (string_truncation_law (List.replicate 70 'a') 8 (by decide)).1
     (by decide),
   (string_truncation_law (List.replicate 70 'a') 8 (by decide)).2
     (by decide) (by decide)⟩

/-- C3: `InteropManager::get_ref` consults the caller's own runtime's
local table first and returns a local reference on a hit — without
issuing the peer `exists` query, so a name registered in both runtimes
resolves to the local actor; only when the name is absent locally is the
peer queried, yielding a cross-runtime reference when the peer has it
and the ActorNotFound failure when neither runtime has it. -/
theorem get_ref_local_first (table : List (String × Nat))
    (ex : String → Bool) (name : String) :
    (∀ h, table.lookup name = some h →
      InteropManager.get_ref table ex name
        = (.ok (.localRef h), false)) ∧
    (table.lookup name = none → ex name = true →
      InteropManager.get_ref table ex name
        = (.ok (.rustRef name ""), true)) ∧
    (table.lookup name = none → ex name = false →
      InteropManager.get_ref table ex name
        = (.error (.actorNotFound name), true)) := by
  refine ⟨?_, ?_, ?_⟩
  · intro h hl
    unfold InteropManager.get_ref
    rw [hl]
  · intro hl hex
    unfold InteropManager.get_ref
    rw [hl]
    simp [hex]
  · intro hl hex
    unfold InteropManager.get_ref
    rw [hl]
    simp [hex]

/-- Witness for C3: the name "collide" registered locally and existing on
the peer resolves locally with no peer query; an unregistered name
resolves via the peer or fails with ActorNotFound. -/
theorem get_ref_local_first_witness :
    ([("collide", 7)].lookup "collide" = some 7 ∧
     InteropManager.get_ref [("collide", 7)] (fun _ => true) "collide"
       = (.ok (.localRef 7), false)) ∧
    (([] : List (String × Nat)).lookup "remote" = none ∧
     InteropManager.get_ref [] (fun _ => true) "remote"
       = (.ok (.rustRef "remote" ""), true)) ∧
    (([] : List (String × Nat)).lookup "ghost" = none ∧
     InteropManager.get_ref [] (fun _ => false) "ghost"
       = (.error (.actorNotFound "ghost"), true)) :=
  ⟨⟨rfl, (get_ref_local_first [("collide", 7)] (fun _ => true)
      "collide").1 7 rfl⟩,
   ⟨rfl, (get_ref_local_first [] (fun _ => true) "remote").2.1 rfl rfl⟩,
   ⟨rfl, (get_ref_local_first [] (fun _ => false) "ghost").2.2 rfl rfl⟩⟩

/-- C4: at the bridge boundary every failure is an integer status: for
an unregistered name the `rust_actor_exists` query returns 0 and a
`rust_actor_send` delivery addressed to it returns the NotFound status
-1; both entry points are total functions into integer statuses, so no
fault propagates across the boundary. -/
theorem bridge_status_on_unregistered (registry : List String)
    (n : String) (sender : Option String) (msgType : Int)
    (h : n ∉ registry) :
    rust_actor_exists registry n = 0 ∧
    rust_actor_send registry n sender msgType = -1 := by
  unfold rust_actor_exists rust_actor_send STATUS_NOT_FOUND
  simp [h]

/-- Witness for C4: the unregistered name of src/tests/test_ffi.cpp. -/
theorem bridge_status_on_unregistered_witness :
    "nonexistent_actor" ∉ ([] : List String) ∧
    rust_actor_exists [] "nonexistent_actor" = 0 ∧
    rust_actor_send [] "nonexistent_actor" (some "test_sender") 1000
      = -1 :=
  ⟨by simp,
   (bridge_status_on_unregistered [] "nonexistent_actor"
      (some "test_sender") 1000 (by simp)).1,
   (bridge_status_on_unregistered [] "nonexistent_actor"
      (some "test_sender") 1000 (by simp)).2⟩

/-- C5: a message whose id is not one of the eight registered interop
ids is dropped by `RustActorRef::send`: the invocation makes no
`rust_actor_send` bridge call (its only observable action is deleting
the message), so nothing is delivered to the peer runtime. -/
theorem send_unknown_id_dropped (t s : String) (msgId : Int)
    (h : msgId ∉ interopMessageIds) :
    rustActorRefSend t s msgId = [SendEvent.deleteMsg] := by
  simp only [interopMessageIds, interopMessageDecls, List.map_cons,
    List.map_nil, List.mem_cons, List.not_mem_nil, or_false,
    not_or] at h
  obtain ⟨h0, h1, h2, h3, h4, h5, h6, h7⟩ := h
  simp [rustActorRefSend, h0, h1, h2, h3, h4, h5, h6, h7]

/-- Witness for C5: id 999 is unregistered and gets dropped. -/
theorem send_unknown_id_dropped_witness :
    (999 : Int) ∉ interopMessageIds ∧
    rustActorRefSend "rust_pong" "cpp_ping" 999 = [SendEvent.deleteMsg] :=
  ⟨by decide, send_unknown_id_dropped "rust_pong" "cpp_ping" 999
     (by decide)⟩

/-- C6: on every branch of the dispatch — each registered id and the
unknown-id branch alike — `RustActorRef::send` deletes the message
exactly once, and the deletion is the last action before returning. -/
theorem send_deletes_message_once (t s : String) (msgId : Int) :
    (rustActorRefSend t s msgId).countP SendEvent.isDelete = 1 ∧
    (rustActorRefSend t s msgId).getLast? = some SendEvent.deleteMsg := by
  unfold rustActorRefSend
  dsimp only
  split_ifs <;> simp [SendEvent.isDelete]

/-- C8: every message type declared in the interop schema has an id of
at least 1000 (so no id below 1000, the control-message range, is ever
assigned), and the declared ids are pairwise distinct. -/
theorem message_ids_ge_1000_and_distinct :
    (∀ p ∈ interopMessageDecls, 1000 ≤ p.2) ∧
    interopMessageIds.Nodup :=
  ⟨by decide, by decide⟩

/-- C9: the invariant "every entry of `subscribers_` has a non-empty
topics list" is preserved by every handler invocation of the PriceFeed
publisher: `on_subscribe` only creates an entry together with adding a
topic to it, and `on_unsubscribe` erases a subscriber's entry entirely
when removing the topic leaves its topic list empty. -/
theorem subscribers_nonempty_invariant (sender : Option String)
    (topic : String) (subs : Subscribers) (hinv : SubsInv subs) :
    SubsInv (on_subscribe sender topic subs) ∧
    SubsInv (on_unsubscribe sender topic subs) := by
  constructor
  · cases sender with
    | none => exact hinv
    | some sname =>
      cases hfind : subsFind subs sname with
      | some v =>
        have hres : on_subscribe (some sname) topic subs
            = subsUpdateFirst subs sname (subscribeUpd topic) := by
          simp only [on_subscribe]
          rw [hfind]
        rw [hres]
        intro e he
        rcases mem_subsUpdateFirst _ _ _ _ he with h1 | ⟨w, hw, hew⟩
        · exact hinv e h1
        · intro hemp
          have hmem := subscribeUpd_mem topic w
          rw [hew] at hemp
          dsimp only at hemp
          rw [hemp] at hmem
          exact List.not_mem_nil _ hmem
      | none =>
        have hres : on_subscribe (some sname) topic subs
            = subs ++ [(sname, subscribeUpd topic ⟨sname, []⟩)] := by
          simp only [on_subscribe]
          rw [hfind]
          exact subsUpdateFirst_append subs sname _ _ hfind
        rw [hres]
        intro e he
        rcases List.mem_append.mp he with h1 | h1
        · exact hinv e h1
        · simp only [List.mem_singleton] at h1
          rw [h1]
          simp [subscribeUpd]
  · cases sender with
    | none => exact hinv
    | some sname =>
      cases hfind : subsFind subs sname with
      | none =>
        have hres : on_unsubscribe (some sname) topic subs = subs := by
          simp only [on_unsubscribe]
          rw [hfind]
        rw [hres]
        exact hinv
      | some info =>
        by_cases hemp : info.topics.filter (fun t => t ≠ topic) = []
        · have hres : on_unsubscribe (some sname) topic subs
              = subsEraseFirst subs sname := by
            simp only [on_unsubscribe]
            rw [hfind]
            dsimp only
            rw [if_pos hemp]
          rw [hres]
          intro e he
          exact hinv e (mem_subsEraseFirst _ _ _ he)
        · have hres : on_unsubscribe (some sname) topic subs
              = subsUpdateFirst subs sname (fun i =>
                  { i with
                    topics := i.topics.filter (fun t => t ≠ topic) }) := by
            simp only [on_unsubscribe]
            rw [hfind]
            dsimp only
            rw [if_neg hemp]
          rw [hres]
          intro e he
          rcases mem_subsUpdateFirst _ _ _ _ he with h1 | ⟨w, hw, hew⟩
          · exact hinv e h1
          · rw [hfind] at hw
            injection hw with hw
            subst hw
            rw [hew]
            intro hbad
            dsimp only at hbad
            exact hemp hbad

/-- Witness for C9: a one-entry table; unsubscribing its only topic
erases the entry, resubscribing it keeps the invariant. -/
theorem subscribers_nonempty_invariant_witness :
    SubsInv [("rust_price_monitor",
      { ref := "rust_price_monitor", topics := ["AAPL"] })] ∧
    (SubsInv (on_subscribe (some "rust_price_monitor") "AAPL"
        [("rust_price_monitor",
          { ref := "rust_price_monitor", topics := ["AAPL"] })]) ∧
     SubsInv (on_unsubscribe (some "rust_price_monitor") "AAPL"
        [("rust_price_monitor",
          { ref := "rust_price_monitor", topics := ["AAPL"] })])) :=
  ⟨by decide,
   subscribers_nonempty_invariant (some "rust_price_monitor") "AAPL"
     [("rust_price_monitor",
       { ref := "rust_price_monitor", topics := ["AAPL"] })] (by decide)⟩

/-- C10: `PriceFeed::on_subscribe` is idempotent on the subscriber
table: delivering the same Subscribe message twice (same sender, same
topic) leaves `subscribers_` exactly as delivering it once — the entry
is created only if absent and the topic appended only if not already
present. -/
theorem on_subscribe_idempotent (sender : Option String) (topic : String)
    (subs : Subscribers) :
    on_subscribe sender topic (on_subscribe sender topic subs)
      = on_subscribe sender topic subs := by
  cases sender with
  | none => rfl
  | some sname =>
    cases hfind : subsFind subs sname with
    | some v =>
      have hres : on_subscribe (some sname) topic subs
          = subsUpdateFirst subs sname (subscribeUpd topic) := by
        simp only [on_subscribe]
        rw [hfind]
      rw [hres]
      have hfind2 :
          subsFind (subsUpdateFirst subs sname (subscribeUpd topic)) sname
            = some (subscribeUpd topic v) := by
        rw [subsFind_updateFirst, hfind]
        rfl
      simp only [on_subscribe]
      rw [hfind2]
      exact subsUpdateFirst_eq_of_fix _ _ _ _ hfind2
        (subscribeUpd_fix _ _ (subscribeUpd_mem _ _))
    | none =>
      have hres : on_subscribe (some sname) topic subs
          = subs ++ [(sname, subscribeUpd topic ⟨sname, []⟩)] := by
        simp only [on_subscribe]
        rw [hfind]
        exact subsUpdateFirst_append subs sname _ _ hfind
      rw [hres]
      have hfind2 :
          subsFind (subs ++ [(sname, subscribeUpd topic ⟨sname, []⟩)]) sname
            = some (subscribeUpd topic ⟨sname, []⟩) :=
        subsFind_append_self subs sname _ hfind
      simp only [on_subscribe]
      rw [hfind2]
      exact subsUpdateFirst_eq_of_fix _ _ _ _ hfind2
        (subscribeUpd_fix _ _ (subscribeUpd_mem _ _))
